import Mathlib

/-!
Verification of the concurrency-control core of the bank-app repository.

The development shallowly embeds, in Lean:

* the Postgres data model (`accounts`, `transactions` tables with their CHECK
  and UNIQUE constraints, from the schema migration),
* the plpgsql function `update_balance` of the latest migration
  (`supabase/migrations/002_demo_account.sql`), including SQL three-valued
  (NULL-propagating) boolean logic, statement-level error raising and
  whole-call rollback,
* the client retry controller `updateBalance` together with
  `calculateBackoffDelay` from `lib/banking.ts` and the types and
  `DEFAULT_RETRY_CONFIG` from `types/banking.ts`.

Monetary amounts (DECIMAL(15,2)) are modelled as integers (a fixed scaling of
the decimal values; only +, -, comparisons with 0 occur, which are
scale-invariant).  UUIDs are modelled as natural numbers.  JS `number`
arithmetic in the backoff computation is modelled as exact rational
arithmetic, with the `Math.random()` draw an explicit parameter in [0, 1).
-/

/-! ## Data model (schema migration: accounts, transactions) -/

/-- One row of the `accounts` table. -/
structure Account where
  id : Nat
  user_id : Option Nat
  balance : Int
  version : Int
  deriving Repr, DecidableEq

/-- One row of the `transactions` table (the audit log). -/
structure Txn where
  account_id : Nat
  ty : String
  amount : Int
  balance_before : Int
  balance_after : Int
  version_at : Int
  status : String
  error_message : Option String
  idempotency_key : Option Nat
  deriving Repr, DecidableEq

/-- The persistent database state: the two tables. -/
structure DB where
  accounts : List Account
  transactions : List Txn
  deriving Repr, DecidableEq

/-! ## SQL three-valued logic helpers

plpgsql `IF` executes its branch only when the condition is TRUE; FALSE and
NULL both skip it.  `SELECT ... INTO` with no result row assigns NULL to all
targets.  These helpers make the NULL propagation of the source explicit. -/

/-- A plpgsql `IF` condition: taken only when the tri-valued condition is
TRUE (NULL behaves like FALSE). -/
def sqlIsTrue (c : Option Bool) : Bool :=
  c == some true

/-- SQL `NOT` on a tri-valued boolean (NOT NULL is NULL). -/
def sqlNot (c : Option Bool) : Option Bool :=
  c.map (fun b => !b)

/-- SQL `AND` on tri-valued booleans. -/
def sqlAnd : Option Bool → Option Bool → Option Bool
  | some false, _ => some false
  | _, some false => some false
  | some true, some true => some true
  | _, _ => none

/-- SQL `<>` on two nullable values (NULL if either side is NULL). -/
def sqlNe {α : Type} [BEq α] (x y : Option α) : Option Bool :=
  match x, y with
  | some u, some v => some (u != v)
  | _, _ => none

/-- SQL `<` against a nullable left operand. -/
def sqlLt (x : Option Int) (y : Int) : Option Bool :=
  x.map (fun u => decide (u < y))

/-- SQL `+` with a nullable left operand. -/
def sqlAdd (x : Option Int) (y : Int) : Option Int :=
  x.map (fun u => u + y)

/-- SQL `-` with a nullable left operand. -/
def sqlSub (x : Option Int) (y : Int) : Option Int :=
  x.map (fun u => u - y)

/-- Postgres `format` renders a NULL argument of `%s` as the empty string. -/
def sqlFormatInt : Option Int → String
  | some n => toString n
  | none => ""

/-! ## Storage-layer constraints

`transactions` carries `CHECK (type IN ('deposit','withdraw'))`,
`CHECK (amount > 0)`, the `valid_balance_change` CHECK, a status CHECK and
`idempotency_key UUID UNIQUE`; `accounts` carries
`CONSTRAINT balance_non_negative CHECK (balance >= 0)`.  A violated
constraint raises an error which aborts the whole function call and rolls
back every effect of the call. -/

/-- The row-level CHECK constraints of the `transactions` table. -/
def txnChecksOk (t : Txn) : Bool :=
  (t.ty == "deposit" || t.ty == "withdraw")
  && (0 < t.amount)
  && ((t.ty == "deposit" && t.balance_after == t.balance_before + t.amount)
      || (t.ty == "withdraw" && t.balance_after == t.balance_before - t.amount)
      || t.status == "failed")
  && (t.status == "completed" || t.status == "failed" || t.status == "pending")

/-- The UNIQUE constraint on `transactions.idempotency_key`: a non-null key
may be inserted only when no existing row bears it. -/
def keyAvail (db : DB) (k : Option Nat) : Bool :=
  k.isNone || db.transactions.all (fun t => t.idempotency_key != k)

/-- `INSERT INTO transactions ...`: appends the row, or raises on a violated
CHECK or UNIQUE constraint. -/
def insertTxn (db : DB) (t : Txn) : Except String DB :=
  if !txnChecksOk t then .error "check_violation"
  else if !keyAvail db t.idempotency_key then .error "unique_violation"
  else .ok { db with transactions := db.transactions ++ [t] }

/-- `UPDATE accounts SET balance = nb, version = version + 1
WHERE id = aid AND version = ev`, returning the updated table and the
affected row count (`GET DIAGNOSTICS ... ROW_COUNT`).  Raises on writing
NULL into the NOT NULL balance column or on violating the
`balance_non_negative` CHECK. -/
def condUpdate (db : DB) (aid : Nat) (ev : Int) (nb : Option Int) :
    Except String (DB × Nat) :=
  let hit : Account → Bool := fun a => a.id == aid && a.version == ev
  let n := (db.accounts.filter hit).length
  if n == 0 then .ok (db, 0)
  else
    match nb with
    | none => .error "not_null_violation"
    | some b =>
      if b < 0 then .error "check_violation"
      else
        let upd : Account → Account := fun a =>
          if hit a then ⟨a.id, a.user_id, b, a.version + 1⟩ else a
        .ok ({ db with accounts := db.accounts.map upd }, n)

/-! ## The atomic operation: plpgsql `update_balance` (002 migration) -/

/-- `SELECT ... FROM accounts a WHERE a.id = p_account_id` (first row). -/
def findAccount (db : DB) (aid : Nat) : Option Account :=
  db.accounts.find? (fun a => a.id == aid)

/-- `SELECT ... FROM transactions t WHERE t.idempotency_key = k` (first row);
a NULL stored key never matches an SQL equality. -/
def findTxnByKey (db : DB) (k : Option Nat) : Option Txn :=
  db.transactions.find? (fun t => t.idempotency_key == k && k.isSome)

/-- Step 2 of `update_balance`: `p_idempotency_key IS NOT NULL` and
`EXISTS (SELECT 1 FROM transactions WHERE idempotency_key = p_idempotency_key
AND status = 'completed')`. -/
def replayHit (db : DB) (k : Option Nat) : Bool :=
  k.isSome && db.transactions.any
    (fun t => t.idempotency_key == k && k.isSome && t.status == "completed")

/-- The authorization condition of `update_balance`:
`IF v_user_id IS NOT NULL AND v_user_id != auth.uid() THEN` (tri-valued:
with an anonymous caller, `v_user_id != auth.uid()` is NULL, so the branch
is skipped and the call is allowed through). -/
def authCheckFails (v_user_id auth_uid : Option Nat) : Bool :=
  sqlIsTrue (sqlAnd (some v_user_id.isSome) (sqlNe v_user_id auth_uid))

/-- The `RETURNS TABLE` row of `update_balance`. -/
structure UBRow where
  success : Bool
  new_balance : Option Int
  new_version : Option Int
  error_code : Option String
  error_message : Option String
  deriving Repr, DecidableEq

/-- Outcome of one call: either a returned result row, or a raised SQL error
(which aborts the call and rolls back all of its effects). -/
inductive UBOutcome where
  | rows (r : UBRow)
  | raised (e : String)
  deriving Repr, DecidableEq

/-- The plpgsql function `update_balance` of
`supabase/migrations/002_demo_account.sql` (the version in force: it
`CREATE OR REPLACE`s the one of the base schema).  `auth_uid` is the
ambient `auth.uid()` (NULL for an anonymous caller).  Returns the database
after the call together with the outcome; a raised error leaves the
database unchanged (transaction rollback). -/
def update_balance (db : DB) (auth_uid : Option Nat) (p_account_id : Nat)
    (p_amount : Int) (p_type : String) (p_expected_version : Int)
    (p_idempotency_key : Option Nat) : DB × UBOutcome :=
  -- 1. SELECT a.user_id, TRUE INTO v_user_id, v_account_exists
  --    (no row: both variables are set to NULL)
  let row1 := findAccount db p_account_id
  let v_user_id : Option Nat := match row1 with
    | some a => a.user_id
    | none => none
  let v_account_exists : Option Bool := match row1 with
    | some _ => some true
    | none => none
  -- IF NOT v_account_exists THEN ... (a NULL condition skips the branch)
  if sqlIsTrue (sqlNot v_account_exists) then
    (db, .rows ⟨false, none, none, some "ACCOUNT_NOT_FOUND", some "Account does not exist"⟩)
  -- IF v_user_id IS NOT NULL AND v_user_id != auth.uid() THEN
  else if authCheckFails v_user_id auth_uid then
    (db, .rows ⟨false, none, none, some "UNAUTHORIZED",
      some "Not authorized to modify this account"⟩)
  -- 2. idempotency check
  else if replayHit db p_idempotency_key then
    -- SELECT t.balance_after, a.version INTO v_new_balance, v_current_version
    -- FROM transactions t JOIN accounts a ON a.id = t.account_id
    -- WHERE t.idempotency_key = p_idempotency_key
    let row2 := (findTxnByKey db p_idempotency_key).bind
      (fun t => (findAccount db t.account_id).map (fun a => (t, a)))
    let v_new_balance : Option Int := row2.map (fun p => p.1.balance_after)
    let v_current_version : Option Int := row2.map (fun p => p.2.version)
    (db, .rows ⟨true, v_new_balance, v_current_version, none,
      some "Idempotent: transaction already processed"⟩)
  else
    -- 3. SELECT balance, version INTO v_current_balance, v_current_version
    let v_current_balance : Option Int := row1.map (fun a => a.balance)
    let v_current_version : Option Int := row1.map (fun a => a.version)
    -- 4. IF v_current_version != p_expected_version THEN
    if sqlIsTrue (sqlNe v_current_version (some p_expected_version)) then
      (db, .rows ⟨false, v_current_balance, v_current_version, some "VERSION_CONFLICT",
        some ("Version mismatch: expected " ++ toString p_expected_version
          ++ ", found " ++ sqlFormatInt v_current_version)⟩)
    -- 5. IF p_type NOT IN ('deposit', 'withdraw') THEN
    else if !(p_type == "deposit" || p_type == "withdraw") then
      (db, .rows ⟨false, none, none, some "INVALID_TYPE",
        some "Type must be deposit or withdraw"⟩)
    else
      -- 6. compute the candidate balance
      let v_new_balance : Option Int :=
        if p_type == "deposit" then sqlAdd v_current_balance p_amount
        else sqlSub v_current_balance p_amount
      -- withdraw only: IF v_new_balance < 0 THEN log failed attempt and return
      if !(p_type == "deposit") && sqlIsTrue (sqlLt v_new_balance 0) then
        match v_current_balance, v_current_version with
        | some cb, some cv =>
          let failedRow : Txn := ⟨p_account_id, p_type, p_amount, cb, cb, cv,
            "failed", some "Insufficient funds", p_idempotency_key⟩
          match insertTxn db failedRow with
          | .ok db2 =>
            (db2, .rows ⟨false, some cb, some cv, some "INSUFFICIENT_FUNDS",
              some ("Cannot withdraw " ++ toString p_amount
                ++ " from balance " ++ toString cb)⟩)
          | .error e => (db, .raised e)
        | _, _ => (db, .raised "not_null_violation")
      else
        -- 7. UPDATE accounts SET balance = v_new_balance, version = version + 1
        --    WHERE id = p_account_id AND version = p_expected_version
        match condUpdate db p_account_id p_expected_version v_new_balance with
        | .error e => (db, .raised e)
        | .ok (db2, n) =>
          -- 8. IF v_rows_affected = 0 THEN re-read version, VERSION_CONFLICT
          if n == 0 then
            let v_current_version2 : Option Int :=
              (findAccount db p_account_id).map (fun a => a.version)
            (db, .rows ⟨false, v_current_balance, v_current_version2,
              some "VERSION_CONFLICT", some "Concurrent modification detected"⟩)
          else
            -- 9. record the completed transaction; 10. return success
            match v_current_balance, v_new_balance with
            | some cb, some nb =>
              let completedRow : Txn := ⟨p_account_id, p_type, p_amount, cb, nb,
                p_expected_version + 1, "completed", none, p_idempotency_key⟩
              match insertTxn db2 completedRow with
              | .ok db3 =>
                (db3, .rows ⟨true, some nb, some (p_expected_version + 1), none, none⟩)
              | .error e => (db, .raised e)
            | _, _ => (db, .raised "not_null_violation")

/-! ## Client side: types/banking.ts and lib/banking.ts -/

/-- `RetryConfig` from `types/banking.ts`.  Delay fields are JS numbers,
modelled as exact rationals. -/
structure RetryConfig where
  maxRetries : Nat
  baseDelayMs : ℚ
  maxDelayMs : ℚ
  retryableErrors : List String

/-- `DEFAULT_RETRY_CONFIG` from `types/banking.ts`. -/
def DEFAULT_RETRY_CONFIG : RetryConfig :=
  ⟨3, 100, 2000, ["VERSION_CONFLICT", "NETWORK_ERROR"]⟩

/-- `calculateBackoffDelay` from `lib/banking.ts`.  `r` is the
`Math.random()` draw, a value in [0, 1); `Math.round` is rounding half
toward positive infinity, which is Mathlib's `round`. -/
def calculateBackoffDelay (attempt : Nat) (config : RetryConfig) (r : ℚ) : ℤ :=
  let exponentialDelay := config.baseDelayMs * 2 ^ attempt
  let cappedDelay := min exponentialDelay config.maxDelayMs
  let jitter := cappedDelay * (1 / 4 : ℚ) * (r * 2 - 1)
  round (cappedDelay + jitter)

/-- A thrown `BankingError` (`types/banking.ts`): its code and the optional
`currentBalance` / `currentVersion` diagnostic fields. -/
structure BErr where
  code : String
  currentBalance : Option Int
  currentVersion : Option Int
  deriving Repr, DecidableEq

/-- `BankingError.isRetryable` from `types/banking.ts`. -/
def isRetryable (e : BErr) : Bool :=
  e.code == "VERSION_CONFLICT" || e.code == "NETWORK_ERROR"

/-- What `getAccountVersion` observes on one attempt: the account's current
version and balance, or a failed fetch (it then throws ACCOUNT_NOT_FOUND). -/
inductive FetchResult where
  | ok (version : Int) (balance : Int)
  | notFound
  deriving Repr, DecidableEq

/-- What the `update_balance` RPC round trip yields on one attempt: a result
row, a transport failure (`attemptBalanceUpdate` then throws NETWORK_ERROR),
or an empty response (it then throws UNKNOWN_ERROR). -/
inductive RpcResult where
  | ok (r : UBRow)
  | netError
  | empty
  deriving Repr, DecidableEq

/-- The environment of one iteration of the retry loop: the fetch outcome
and, if the RPC is reached, its outcome. -/
structure Attempt where
  fetch : FetchResult
  rpc : RpcResult
  deriving Repr, DecidableEq

/-- Result of the client `updateBalance` call: a returned
`UpdateBalanceResult` or a thrown `BankingError`. -/
inductive ClientResult where
  | returned (r : UBRow)
  | thrown (e : BErr)
  deriving Repr, DecidableEq

/-- One iteration of the `while` loop of `updateBalance` (`lib/banking.ts`):
the try block plus the catch clause.  `Sum.inl` means the loop terminates
with that result (a return or an uncaught throw); `Sum.inr e` means a
retryable error was absorbed (`lastError = e`) and the loop continues. -/
def attemptStep (config : RetryConfig) (p_type : String) (amount : Int)
    (att : Attempt) : ClientResult ⊕ BErr :=
  match att.fetch with
  | .notFound =>
    -- getAccountVersion throws ACCOUNT_NOT_FOUND; not retryable: rethrown
    .inl (.thrown ⟨"ACCOUNT_NOT_FOUND", none, none⟩)
  | .ok expectedVersion currentBalance =>
    -- early validation: check funds before making the RPC call
    if p_type == "withdraw" && currentBalance < amount then
      .inl (.thrown ⟨"INSUFFICIENT_FUNDS", some currentBalance, some expectedVersion⟩)
    else
      match att.rpc with
      | .netError => .inr ⟨"NETWORK_ERROR", none, none⟩
      | .empty => .inl (.thrown ⟨"UNKNOWN_ERROR", none, none⟩)
      | .ok result =>
        if result.success then .inl (.returned result)
        else
          match result.error_code with
          | some c =>
            if !(config.retryableErrors.contains c) then
              -- non-retryable error: thrown, and rethrown by the catch
              -- unless BankingError.isRetryable holds for it
              let e : BErr := ⟨c, result.new_balance, result.new_version⟩
              if !(isRetryable e) then .inl (.thrown e) else .inr e
            else .inr ⟨c, result.new_balance, result.new_version⟩
          | none => .inr ⟨"UNKNOWN_ERROR", result.new_balance, result.new_version⟩

/-- The `while (attempt <= retryConfig.maxRetries)` loop of `updateBalance`:
`fuel` is the number of iterations still allowed (initially
`maxRetries + 1`), `i` the current attempt index, and `atts` supplies each
iteration's environment.  Exhaustion throws MAX_RETRIES_EXCEEDED carrying
the last error's balance/version. -/
def updateBalanceLoop (config : RetryConfig) (p_type : String) (amount : Int)
    (atts : Nat → Attempt) :
    Nat → Nat → Option BErr → ClientResult
  | 0, _, lastError =>
    .thrown ⟨"MAX_RETRIES_EXCEEDED",
      lastError.bind (fun e => e.currentBalance),
      lastError.bind (fun e => e.currentVersion)⟩
  | fuel + 1, i, _ =>
    match attemptStep config p_type amount (atts i) with
    | .inl res => res
    | .inr e => updateBalanceLoop config p_type amount atts fuel (i + 1) (some e)

/-- The exported `updateBalance` of `lib/banking.ts`: input validation,
then the retry loop. -/
def updateBalance (config : RetryConfig) (p_type : String) (amount : Int)
    (atts : Nat → Attempt) : ClientResult :=
  if amount ≤ 0 then .thrown ⟨"INVALID_AMOUNT", none, none⟩
  else if !(["deposit", "withdraw"].contains p_type) then
    .thrown ⟨"INVALID_TYPE", none, none⟩
  else updateBalanceLoop config p_type amount atts (config.maxRetries + 1) 0 none

/-- The candidate balance of step 6 of `update_balance`. -/
def candidate (ty : String) (balance amt : Int) : Int :=
  if ty == "deposit" then balance + amt else balance - amt

/-! ## Concrete states used by the closed theorems -/

/-- A demo account with balance 5 at version 3, plus a completed withdrawal
recorded under idempotency key 7 (balance 15 → 5 at version 2). -/
def dbReplayLowBalance : DB :=
  ⟨[⟨0, none, 5, 3⟩],
   [⟨0, "withdraw", 10, 15, 5, 2, "completed", none, some 7⟩]⟩

/-- A demo account now at balance 100, version 5; its audit log holds the
completed deposit recorded under key 7, which committed at version 2 with
`balance_after = 50`. -/
def dbReplayLater : DB :=
  ⟨[⟨0, none, 100, 5⟩],
   [⟨0, "deposit", 40, 10, 50, 2, "completed", none, some 7⟩]⟩

/-- A demo account with balance 5 at version 1, whose audit log holds a
failed withdrawal recorded under idempotency key 9. -/
def dbFailedKey : DB :=
  ⟨[⟨0, none, 5, 1⟩],
   [⟨0, "withdraw", 10, 5, 5, 1, "failed", some "Insufficient funds", some 9⟩]⟩

/-- A demo account with balance 5 at version 1 and an empty audit log. -/
def dbSmall : DB :=
  ⟨[⟨0, none, 5, 1⟩], []⟩

/-! ## Sanity checks on concrete runs -/

example :
    update_balance ⟨[⟨0, none, 100, 1⟩], []⟩ none 0 30 "deposit" 1 none =
      (⟨[⟨0, none, 130, 2⟩],
        [⟨0, "deposit", 30, 100, 130, 2, "completed", none, none⟩]⟩,
       .rows ⟨true, some 130, some 2, none, none⟩) := by
  decide

example :
    (update_balance ⟨[], []⟩ none 0 10 "deposit" 1 none).2 =
      .rows ⟨false, none, none, some "VERSION_CONFLICT",
        some "Concurrent modification detected"⟩ := by
  decide

example :
    updateBalance DEFAULT_RETRY_CONFIG "withdraw" 10
      (fun _ => ⟨.ok 1 5, .netError⟩) =
      .thrown ⟨"INSUFFICIENT_FUNDS", some 5, some 1⟩ := by
  decide

example :
    updateBalance DEFAULT_RETRY_CONFIG "deposit" 10
      (fun _ => ⟨.ok 1 5, .netError⟩) =
      .thrown ⟨"MAX_RETRIES_EXCEEDED", none, none⟩ := by
  decide

/-! ## Path-characterization lemmas for `update_balance` -/

/-- The idempotent-replay path: with the account present, the authorization
branch not taken, and a completed entry bearing the supplied key, the call
returns the joined cached row and leaves the database untouched. -/
theorem ub_replay_eq (db : DB) (auth : Option Nat) (aid : Nat) (amt : Int)
    (ty : String) (ev : Int) (key : Option Nat) (a : Account)
    (h1 : findAccount db aid = some a)
    (h2 : authCheckFails a.user_id auth = false)
    (h3 : replayHit db key = true) :
    update_balance db auth aid amt ty ev key =
      (db, .rows ⟨true,
        ((findTxnByKey db key).bind
          (fun t => (findAccount db t.account_id).map (fun x => (t, x)))).map
            (fun p => p.1.balance_after),
        ((findTxnByKey db key).bind
          (fun t => (findAccount db t.account_id).map (fun x => (t, x)))).map
            (fun p => p.2.version),
        none, some "Idempotent: transaction already processed"⟩) := by
  simp only [update_balance, h1, h2, h3, sqlIsTrue, sqlNot, Option.map_some']
  simp

/-- The insufficient-funds path: withdrawing more than the balance, with a
key not already present in the audit log, appends the failed entry and
returns INSUFFICIENT_FUNDS with the current balance and version. -/
theorem ub_insufficient_eq (db : DB) (auth : Option Nat) (aid : Nat)
    (amt : Int) (ev : Int) (key : Option Nat) (a : Account)
    (h1 : findAccount db aid = some a)
    (h2 : authCheckFails a.user_id auth = false)
    (h3 : replayHit db key = false)
    (h4 : a.version = ev)
    (h6 : a.balance - amt < 0)
    (h7 : 0 < amt)
    (h8 : keyAvail db key = true) :
    update_balance db auth aid amt "withdraw" ev key =
      ({ db with transactions := db.transactions ++
          [⟨aid, "withdraw", amt, a.balance, a.balance, ev, "failed",
            some "Insufficient funds", key⟩] },
       .rows ⟨false, some a.balance, some ev, some "INSUFFICIENT_FUNDS",
        some ("Cannot withdraw " ++ toString amt
          ++ " from balance " ++ toString a.balance)⟩) := by
  subst h4
  simp only [update_balance, h1, h2, h3, sqlIsTrue, sqlNot, sqlNe, sqlSub,
    Option.map_some', bne_self_eq_false, Bool.false_eq_true, if_false,
    Bool.false_and, reduceIte, sqlLt, insertTxn, txnChecksOk, h8]
  simp [insertTxn, txnChecksOk, h6, h7, h8, keyAvail]

/-- The tri-valued ownership test is never TRUE when the looked-up owner is
NULL (`v_user_id IS NOT NULL` is false). -/
theorem authCheckFails_none (auth : Option Nat) :
    authCheckFails none auth = false := by
  cases auth <;> rfl

/-- With no account row for the id: the not-found branch is skipped (its
plpgsql condition is NULL), the authorization branch is skipped, and —
unless an idempotent replay fires or the type is invalid — the call falls
through the NULL-propagating checks to the zero-row conditional write and
reports VERSION_CONFLICT. -/
theorem ub_missing_eq (db : DB) (auth : Option Nat) (aid : Nat) (amt : Int)
    (ty : String) (ev : Int) (key : Option Nat)
    (h : findAccount db aid = none) :
    update_balance db auth aid amt ty ev key =
      (if replayHit db key then
        (db, .rows ⟨true,
          ((findTxnByKey db key).bind
            (fun t => (findAccount db t.account_id).map (fun x => (t, x)))).map
              (fun p => p.1.balance_after),
          ((findTxnByKey db key).bind
            (fun t => (findAccount db t.account_id).map (fun x => (t, x)))).map
              (fun p => p.2.version),
          none, some "Idempotent: transaction already processed"⟩)
      else if !(ty == "deposit" || ty == "withdraw") then
        (db, .rows ⟨false, none, none, some "INVALID_TYPE",
          some "Type must be deposit or withdraw"⟩)
      else
        (db, .rows ⟨false, none, none, some "VERSION_CONFLICT",
          some "Concurrent modification detected"⟩)) := by
  have h' : db.accounts.find? (fun x => x.id == aid) = none := h
  have hnone : ∀ x ∈ db.accounts, ¬ ((fun x : Account => x.id == aid) x = true) :=
    fun x hx => by
      have := List.find?_eq_none.mp h' x hx
      simpa using this
  have hfil : db.accounts.filter
      (fun x : Account => x.id == aid && x.version == ev) = [] := by
    refine List.filter_eq_nil_iff.mpr (fun x hx => ?_)
    have := hnone x hx
    simp at this
    simp [this]
  simp only [update_balance, h, condUpdate, hfil]
  by_cases hr : replayHit db key
  · simp [hr, sqlIsTrue, sqlNot, sqlAnd, authCheckFails_none]
  · by_cases hty : (ty == "deposit" || ty == "withdraw") = true
    · simp [hr, hty, sqlIsTrue, sqlNot, sqlAnd, sqlNe, sqlLt, sqlAdd, sqlSub, h,
        authCheckFails_none]
    · simp [hr, hty, sqlIsTrue, sqlNot, sqlAnd, sqlNe, h, authCheckFails_none]

/-- The unauthorized path: account present, owned, and the tri-valued
ownership test comes out TRUE. -/
theorem ub_unauthorized_eq (db : DB) (auth : Option Nat) (aid : Nat)
    (amt : Int) (ty : String) (ev : Int) (key : Option Nat) (a : Account)
    (h1 : findAccount db aid = some a)
    (h2 : authCheckFails a.user_id auth = true) :
    update_balance db auth aid amt ty ev key =
      (db, .rows ⟨false, none, none, some "UNAUTHORIZED",
        some "Not authorized to modify this account"⟩) := by
  simp only [update_balance, h1, h2]
  simp [sqlIsTrue, sqlNot]

/-- The optimistic-locking rejection: stored version differs from the
expected one. -/
theorem ub_version_conflict_eq (db : DB) (auth : Option Nat) (aid : Nat)
    (amt : Int) (ty : String) (ev : Int) (key : Option Nat) (a : Account)
    (h1 : findAccount db aid = some a)
    (h2 : authCheckFails a.user_id auth = false)
    (h3 : replayHit db key = false)
    (h4 : a.version ≠ ev) :
    update_balance db auth aid amt ty ev key =
      (db, .rows ⟨false, some a.balance, some a.version, some "VERSION_CONFLICT",
        some ("Version mismatch: expected " ++ toString ev
          ++ ", found " ++ toString a.version)⟩) := by
  simp only [update_balance, h1, h2, h3]
  simp [sqlIsTrue, sqlNot, sqlNe, sqlFormatInt, h4]

/-- The invalid-type rejection. -/
theorem ub_invalid_type_eq (db : DB) (auth : Option Nat) (aid : Nat)
    (amt : Int) (ty : String) (ev : Int) (key : Option Nat) (a : Account)
    (h1 : findAccount db aid = some a)
    (h2 : authCheckFails a.user_id auth = false)
    (h3 : replayHit db key = false)
    (h4 : a.version = ev)
    (h5 : (ty == "deposit" || ty == "withdraw") = false) :
    update_balance db auth aid amt ty ev key =
      (db, .rows ⟨false, none, none, some "INVALID_TYPE",
        some "Type must be deposit or withdraw"⟩) := by
  subst h4
  simp only [update_balance, h1, h2, h3, h5]
  simp [sqlIsTrue, sqlNot, sqlNe, h5]

/-- The insufficient-funds path, in match form: the outcome is whatever the
failed-entry insert allows (a successful insert yields the
INSUFFICIENT_FUNDS row; a violated constraint raises and rolls back). -/
theorem ub_insufficient_match_eq (db : DB) (auth : Option Nat) (aid : Nat)
    (amt : Int) (ev : Int) (key : Option Nat) (a : Account)
    (h1 : findAccount db aid = some a)
    (h2 : authCheckFails a.user_id auth = false)
    (h3 : replayHit db key = false)
    (h4 : a.version = ev)
    (h6 : a.balance - amt < 0) :
    update_balance db auth aid amt "withdraw" ev key =
      (match insertTxn db ⟨aid, "withdraw", amt, a.balance, a.balance, ev,
          "failed", some "Insufficient funds", key⟩ with
        | .ok db2 =>
          (db2, .rows ⟨false, some a.balance, some ev, some "INSUFFICIENT_FUNDS",
            some ("Cannot withdraw " ++ toString amt
              ++ " from balance " ++ toString a.balance)⟩)
        | .error e => (db, .raised e)) := by
  subst h4
  simp only [update_balance, h1, h2, h3]
  simp [sqlIsTrue, sqlNot, sqlNe, sqlSub, sqlLt, h6]

/-- A deposit whose candidate balance is negative (possible only for a
non-positive amount) violates the storage CHECK inside the conditional
write: the call raises and rolls back. -/
theorem ub_deposit_negative_eq (db : DB) (auth : Option Nat) (aid : Nat)
    (amt : Int) (ev : Int) (key : Option Nat) (a : Account)
    (h1 : findAccount db aid = some a)
    (h2 : authCheckFails a.user_id auth = false)
    (h3 : replayHit db key = false)
    (h4 : a.version = ev)
    (h6 : a.balance + amt < 0) :
    update_balance db auth aid amt "deposit" ev key =
      (db, .raised "check_violation") := by
  subst h4
  have h1' : db.accounts.find? (fun x => x.id == aid) = some a := h1
  have hmem : a ∈ db.accounts := List.mem_of_find?_eq_some h1'
  have hid : a.id = aid := by simpa using List.find?_some h1'
  have hn' : ¬ ((db.accounts.filter
      (fun x : Account => x.id == aid && x.version == a.version)).length = 0) := by
    have : a ∈ db.accounts.filter
        (fun x : Account => x.id == aid && x.version == a.version) :=
      List.mem_filter.mpr ⟨hmem, by simp [hid]⟩
    have hpos := List.length_pos_of_mem this
    omega
  simp only [update_balance, h1, h2, h3, condUpdate]
  simp [sqlIsTrue, sqlNot, sqlNe, sqlAdd, sqlLt, hn', h6]

/-- The commit path: with every check passed and a non-negative candidate
balance, the call performs the conditional write and then attempts the
completed-entry insert; the result is that insert's outcome (a raised
insert rolls the whole call back). -/
theorem ub_commit_eq (db : DB) (auth : Option Nat) (aid : Nat)
    (amt : Int) (ty : String) (ev : Int) (key : Option Nat) (a : Account)
    (h1 : findAccount db aid = some a)
    (h2 : authCheckFails a.user_id auth = false)
    (h3 : replayHit db key = false)
    (h4 : a.version = ev)
    (h5 : ty = "deposit" ∨ ty = "withdraw")
    (h6 : 0 ≤ candidate ty a.balance amt) :
    update_balance db auth aid amt ty ev key =
      (match insertTxn
          { db with accounts := db.accounts.map (fun x =>
              if x.id == aid && x.version == ev
              then ⟨x.id, x.user_id, candidate ty a.balance amt, x.version + 1⟩
              else x) }
          ⟨aid, ty, amt, a.balance, candidate ty a.balance amt, ev + 1,
            "completed", none, key⟩ with
        | .ok db3 =>
          (db3, .rows ⟨true, some (candidate ty a.balance amt),
            some (ev + 1), none, none⟩)
        | .error e => (db, .raised e)) := by
  subst h4
  have h1' : db.accounts.find? (fun x => x.id == aid) = some a := h1
  have hmem : a ∈ db.accounts := List.mem_of_find?_eq_some h1'
  have hid : a.id = aid := by simpa using List.find?_some h1'
  have hhit : (fun x : Account => x.id == aid && x.version == a.version) a = true := by
    simp [hid]
  have hn : ((db.accounts.filter
      (fun x : Account => x.id == aid && x.version == a.version)).length == 0) = false := by
    have : a ∈ db.accounts.filter
        (fun x : Account => x.id == aid && x.version == a.version) :=
      List.mem_filter.mpr ⟨hmem, hhit⟩
    have hpos := List.length_pos_of_mem this
    simp only [beq_eq_false_iff_ne, ne_eq]
    omega
  have hn' : ¬ ((db.accounts.filter
      (fun x : Account => x.id == aid && x.version == a.version)).length = 0) := by
    simpa using hn
  rcases h5 with h5 | h5 <;> subst h5
  · have h6' : 0 ≤ a.balance + amt := by simpa [candidate] using h6
    simp only [update_balance, h1, h2, h3, condUpdate, candidate]
    simp [sqlIsTrue, sqlNot, sqlNe, sqlAdd, sqlSub, sqlLt, hn',
      not_lt.mpr h6']
  · have h6' : 0 ≤ a.balance - amt := by simpa [candidate] using h6
    have h6'' : ¬ (a.balance < amt) := by omega
    simp only [update_balance, h1, h2, h3, condUpdate, candidate]
    simp [sqlIsTrue, sqlNot, sqlNe, sqlAdd, sqlSub, sqlLt, hn', h6'',
      not_lt.mpr h6']


/-- The replay path with the cached row made explicit: with the account of
the request present and authorized, and the first audit entry bearing the
key being completed and joinable to its own account, the call returns that
entry's `balance_after` together with the joined account's current
version, and mutates nothing. -/
theorem ub_replay_join_eq (db : DB) (auth : Option Nat) (aid : Nat)
    (amt : Int) (ty : String) (ev : Int) (k : Nat) (a : Account) (t : Txn)
    (ay : Account)
    (h1 : findAccount db aid = some a)
    (h2 : authCheckFails a.user_id auth = false)
    (h3 : findTxnByKey db (some k) = some t)
    (h4 : t.status = "completed")
    (h6 : findAccount db t.account_id = some ay) :
    update_balance db auth aid amt ty ev (some k) =
      (db, .rows ⟨true, some t.balance_after, some ay.version, none,
        some "Idempotent: transaction already processed"⟩) := by
  have h3' : db.transactions.find?
      (fun u => u.idempotency_key == some k && (some k).isSome) = some t := h3
  have hmem : t ∈ db.transactions := List.mem_of_find?_eq_some h3'
  have hkey : t.idempotency_key = some k := by
    have := List.find?_some h3'
    simpa using this
  have hr : replayHit db (some k) = true := by
    simp only [replayHit, Option.isSome_some, Bool.true_and]
    rw [List.any_eq_true]
    exact ⟨t, hmem, by simp [hkey, h4]⟩
  rw [ub_replay_eq db auth aid amt ty ev (some k) a h1 h2 hr]
  rw [h3]
  simp [h6]

/-! ## Claim theorems -/

/-- C4: the claim says a call to `update_balance` whose accountId names no
existing account returns ACCOUNT_NOT_FOUND.  The code disagrees: because
`SELECT ... INTO v_account_exists` leaves the flag NULL for a missing row
and plpgsql skips an `IF` whose condition is NULL, the not-found branch is
dead, the NULL state propagates through every later check, and the
zero-row conditional write reports VERSION_CONFLICT ("Concurrent
modification detected") with NULL balance and version.  This theorem
evaluates the operation at such a failing input. -/
theorem C4_missing_account_returns_version_conflict :
    update_balance ⟨[], []⟩ none 7 10 "deposit" 1 none =
      (⟨[], []⟩, .rows ⟨false, none, none, some "VERSION_CONFLICT",
        some "Concurrent modification detected"⟩) := by
  decide

/-- C10: the idempotency lookup ignores the requested account: a call for
account X with a key whose completed audit entry belongs to a different
account Y returns success carrying that entry's `balance_after` and Y's
current version, for any amount, type and expected version — bypassing the
version and type checks and mutating nothing. -/
theorem C10_replay_ignores_requested_account (db : DB) (auth : Option Nat)
    (aid : Nat) (amt : Int) (ty : String) (ev : Int) (k : Nat)
    (ax : Account) (t : Txn) (ay : Account)
    (h1 : findAccount db aid = some ax)
    (h2 : authCheckFails ax.user_id auth = false)
    (h3 : findTxnByKey db (some k) = some t)
    (h4 : t.status = "completed")
    (h5 : t.account_id ≠ aid)
    (h6 : findAccount db t.account_id = some ay) :
    update_balance db auth aid amt ty ev (some k) =
      (db, .rows ⟨true, some t.balance_after, some ay.version, none,
        some "Idempotent: transaction already processed"⟩) :=
  ub_replay_join_eq db auth aid amt ty ev k ax t ay h1 h2 h3 h4 h6

/-- Witness for C10: account 0 requests a withdrawal with key 7, but the
completed entry under key 7 belongs to account 1 (balance_after 50,
current version 4); the call succeeds with account 1's data and changes
nothing. -/
theorem C10_witness :
    update_balance
      ⟨[⟨0, none, 5, 3⟩, ⟨1, none, 80, 4⟩],
       [⟨1, "deposit", 40, 10, 50, 2, "completed", none, some 7⟩]⟩
      none 0 25 "withdraw" 3 (some 7) =
      (⟨[⟨0, none, 5, 3⟩, ⟨1, none, 80, 4⟩],
        [⟨1, "deposit", 40, 10, 50, 2, "completed", none, some 7⟩]⟩,
       .rows ⟨true, some 50, some 4, none,
        some "Idempotent: transaction already processed"⟩) :=
  C10_replay_ignores_requested_account
    ⟨[⟨0, none, 5, 3⟩, ⟨1, none, 80, 4⟩],
     [⟨1, "deposit", 40, 10, 50, 2, "completed", none, some 7⟩]⟩
    none 0 25 "withdraw" 3 7 ⟨0, none, 5, 3⟩
    ⟨1, "deposit", 40, 10, 50, 2, "completed", none, some 7⟩ ⟨1, none, 80, 4⟩
    (by decide) (by decide) (by decide) (by decide) (by decide) (by decide)

/-- C3, counterexample: the claim says a replay returns "the version that
resulted from the original mutation".  In `dbReplayLater` the completed
entry under key 7 committed at version 2 (`version_at = 2`), but the
account has since advanced to version 5; the replay returns new_version 5,
not 2, because the cached-result query joins the account's *current* row. -/
theorem C3_counterexample_replay_version :
    (update_balance dbReplayLater none 0 40 "deposit" 5 (some 7)).2 =
      .rows ⟨true, some 50, some 5, none,
        some "Idempotent: transaction already processed"⟩
    ∧ dbReplayLater.transactions.map (fun t => t.version_at) = [2]
    ∧ ((5 : Int) = 2 → False) := by
  refine ⟨by decide, by decide, by decide⟩

/-- C3 as amended: for every state with a completed audit entry bearing
key k (first entry under k, joinable to its account), a second
`update_balance` call with key k returns a successful replay outcome
carrying the entry's recorded `balanceAfter` and the *current* version of
the entry's account (this equals the version produced by the original
mutation only when no later mutation has occurred), and the call applies
no new mutation and performs no version check or balance computation (the
outcome is independent of the supplied amount, type and expectedVersion). -/
theorem C3_replay_returns_current_version (db : DB) (auth : Option Nat)
    (aid : Nat) (amt : Int) (ty : String) (ev : Int) (k : Nat)
    (a : Account) (t : Txn) (ay : Account)
    (h1 : findAccount db aid = some a)
    (h2 : authCheckFails a.user_id auth = false)
    (h3 : findTxnByKey db (some k) = some t)
    (h4 : t.status = "completed")
    (h6 : findAccount db t.account_id = some ay) :
    update_balance db auth aid amt ty ev (some k) =
      (db, .rows ⟨true, some t.balance_after, some ay.version, none,
        some "Idempotent: transaction already processed"⟩) :=
  ub_replay_join_eq db auth aid amt ty ev k a t ay h1 h2 h3 h4 h6

/-- Witness for C3: replaying key 7 against `dbReplayLater` returns
balance_after 50 with the current version 5 and leaves the state intact. -/
theorem C3_witness :
    update_balance dbReplayLater none 0 40 "deposit" 5 (some 7) =
      (dbReplayLater, .rows ⟨true, some 50, some 5, none,
        some "Idempotent: transaction already processed"⟩) :=
  C3_replay_returns_current_version dbReplayLater none 0 40 "deposit" 5 7
    ⟨0, none, 100, 5⟩ ⟨0, "deposit", 40, 10, 50, 2, "completed", none, some 7⟩
    ⟨0, none, 100, 5⟩
    (by decide) (by decide) (by decide) (by decide) (by decide)

/-- C9: failed entries poison the idempotency key.  The replay lookup
matches only completed entries, so a state whose audit log holds an entry
(e.g. a failed one) under key k passes the idempotency check; a later call
reusing k that passes every remaining check and reaches the final
completed-entry insert violates the UNIQUE constraint on
`idempotency_key`, raises, and rolls back its balance update — the call
neither applies a mutation nor replays a result. -/
theorem C9_failed_entry_poisons_key (db : DB) (auth : Option Nat)
    (aid : Nat) (amt : Int) (ty : String) (ev : Int) (k : Nat) (a : Account)
    (h1 : findAccount db aid = some a)
    (h2 : authCheckFails a.user_id auth = false)
    (h3 : replayHit db (some k) = false)
    (h4 : a.version = ev)
    (h5 : ty = "deposit" ∨ ty = "withdraw")
    (h6 : 0 ≤ candidate ty a.balance amt)
    (h7 : 0 < amt)
    (h8 : ∃ t ∈ db.transactions, t.idempotency_key = some k) :
    update_balance db auth aid amt ty ev (some k) =
      (db, .raised "unique_violation") := by
  rw [ub_commit_eq db auth aid amt ty ev (some k) a h1 h2 h3 h4 h5 h6]
  obtain ⟨t, ht, hk⟩ := h8
  have hchk : txnChecksOk ⟨aid, ty, amt, a.balance, candidate ty a.balance amt,
      ev + 1, "completed", none, some k⟩ = true := by
    rcases h5 with h5 | h5 <;> subst h5 <;> simp [txnChecksOk, candidate, h7]
  have hka : ∀ l : List Account, keyAvail ⟨l, db.transactions⟩ (some k) = false := by
    intro l
    simp only [keyAvail, Option.isNone_some, Bool.false_or]
    rw [List.all_eq_false]
    exact ⟨t, ht, by simp [hk]⟩
  simp [insertTxn, hchk, hka]

/-- Witness for C9: in `dbFailedKey` the failed withdrawal holds key 9; a
deposit of 10 reusing key 9 passes every check, reaches the completed
insert, and aborts with the unique violation, leaving the state intact. -/
theorem C9_witness :
    update_balance dbFailedKey none 0 10 "deposit" 1 (some 9) =
      (dbFailedKey, .raised "unique_violation") :=
  C9_failed_entry_poisons_key dbFailedKey none 0 10 "deposit" 1 9
    ⟨0, none, 5, 1⟩ (by decide) (by decide) (by decide) (by decide)
    (Or.inl rfl) (by decide) (by decide)
    ⟨⟨0, "withdraw", 10, 5, 5, 1, "failed", some "Insufficient funds", some 9⟩,
      by decide, rfl⟩

/-- A successful `transactions` insert never touches the `accounts` table. -/
theorem insertTxn_accounts {d : DB} {t : Txn} {d' : DB}
    (h : insertTxn d t = .ok d') : d'.accounts = d.accounts := by
  unfold insertTxn at h
  split_ifs at h
  injection h with h2
  subst h2
  rfl

/-- C5, counterexample: the claim says every withdraw that passes the
account, authorization, idempotency and version checks with a negative
candidate balance appends a failed audit entry and returns
INSUFFICIENT_FUNDS.  In `dbFailedKey` a failed entry already bears key 9;
a withdrawal of 10 from balance 5 reusing key 9 passes all four checks
(the idempotency check only looks at completed entries), but the
failed-entry insert violates the UNIQUE key constraint: the call aborts
with a raised error and appends nothing, instead of returning the
INSUFFICIENT_FUNDS row. -/
theorem C5_counterexample_poisoned_key :
    update_balance dbFailedKey none 0 10 "withdraw" 1 (some 9) =
      (dbFailedKey, .raised "unique_violation")
    ∧ ∀ r, (update_balance dbFailedKey none 0 10 "withdraw" 1 (some 9)).2 =
        .rows r → False := by
  refine ⟨by decide, ?_⟩
  intro r hr
  rw [(by decide :
    (update_balance dbFailedKey none 0 10 "withdraw" 1 (some 9)).2 =
      .raised "unique_violation")] at hr
  cases hr

/-- C5 as amended: for every withdraw call that passes the account,
authorization, idempotency and version checks, whose candidate balance is
negative, and whose idempotency key is not already borne by any audit
entry, the operation appends a failed audit entry with
`balanceBefore = balanceAfter = current balance` and `versionAt` the
current version, returns INSUFFICIENT_FUNDS with the current balance and
version, and leaves the accounts table unchanged. -/
theorem C5_insufficient_funds_shape (db : DB) (auth : Option Nat)
    (aid : Nat) (amt : Int) (ev : Int) (key : Option Nat) (a : Account)
    (h1 : findAccount db aid = some a)
    (h2 : authCheckFails a.user_id auth = false)
    (h3 : replayHit db key = false)
    (h4 : a.version = ev)
    (h6 : a.balance - amt < 0)
    (h7 : 0 < amt)
    (h8 : keyAvail db key = true) :
    update_balance db auth aid amt "withdraw" ev key =
      ({ db with transactions := db.transactions ++
          [⟨aid, "withdraw", amt, a.balance, a.balance, ev, "failed",
            some "Insufficient funds", key⟩] },
       .rows ⟨false, some a.balance, some ev, some "INSUFFICIENT_FUNDS",
        some ("Cannot withdraw " ++ toString amt
          ++ " from balance " ++ toString a.balance)⟩) :=
  ub_insufficient_eq db auth aid amt ev key a h1 h2 h3 h4 h6 h7 h8

/-- Witness for C5: withdrawing 10 from `dbSmall` (balance 5, version 1,
no key in use) appends the failed entry and returns INSUFFICIENT_FUNDS
with balance 5 and version 1. -/
theorem C5_witness :
    update_balance dbSmall none 0 10 "withdraw" 1 none =
      ({ dbSmall with transactions := dbSmall.transactions ++
          [⟨0, "withdraw", 10, 5, 5, 1, "failed",
            some "Insufficient funds", none⟩] },
       .rows ⟨false, some 5, some 1, some "INSUFFICIENT_FUNDS",
        some ("Cannot withdraw " ++ toString (10 : Int)
          ++ " from balance " ++ toString (5 : Int))⟩) :=
  C5_insufficient_funds_shape dbSmall none 0 10 1 none ⟨0, none, 5, 1⟩
    (by decide) (by decide) (by decide) (by decide) (by decide) (by decide)
    (by decide)

/-- C1, counterexample: the claim says any withdraw whose candidate balance
is negative "is rejected as INSUFFICIENT_FUNDS".  In `dbReplayLowBalance`
(balance 5 ≥ 0) a withdrawal of 10 > 0 whose candidate balance is −5
carries key 7, which an earlier completed entry bears: the idempotency
replay fires first and the call returns SUCCESS (with the cached data),
not INSUFFICIENT_FUNDS.  (The balance itself stays 5 ≥ 0.) -/
theorem C1_counterexample_replay_success :
    ((0 : Int) ≤ 5 ∧ (0 : Int) < 10 ∧ (5 : Int) - 10 < 0)
    ∧ update_balance dbReplayLowBalance none 0 10 "withdraw" 3 (some 7) =
        (dbReplayLowBalance, .rows ⟨true, some 5, some 3, none,
          some "Idempotent: transaction already processed"⟩) := by
  refine ⟨by decide, by decide⟩

/-- C1 as amended: (1) `update_balance` preserves the non-negative-balance
invariant: starting from any state whose accounts all have balance ≥ 0,
every account still has balance ≥ 0 after any call (any positive amount,
any type, any expected version, any key); (2) a withdraw whose candidate
balance is negative never commits the conditional write — the accounts
table is unchanged; and (3) such a withdraw is rejected as
INSUFFICIENT_FUNDS whenever the call reaches the sufficient-funds check
(account found, authorization passed, no idempotent replay, version match)
with a key not already present in the audit log. -/
theorem C1_balance_invariant (db : DB) (auth : Option Nat) (aid : Nat)
    (amt : Int) (ty : String) (ev : Int) (key : Option Nat)
    (hamt : 0 < amt)
    (hinv : ∀ a ∈ db.accounts, 0 ≤ a.balance) :
    (∀ a' ∈ (update_balance db auth aid amt ty ev key).1.accounts,
      0 ≤ a'.balance)
    ∧ (∀ a, ty = "withdraw" → findAccount db aid = some a →
        a.balance - amt < 0 →
        (update_balance db auth aid amt ty ev key).1.accounts = db.accounts)
    ∧ (∀ a, ty = "withdraw" → findAccount db aid = some a →
        authCheckFails a.user_id auth = false → replayHit db key = false →
        a.version = ev → a.balance - amt < 0 → keyAvail db key = true →
        (update_balance db auth aid amt ty ev key).2 =
          .rows ⟨false, some a.balance, some a.version,
            some "INSUFFICIENT_FUNDS",
            some ("Cannot withdraw " ++ toString amt
              ++ " from balance " ++ toString a.balance)⟩) := by
  have hmap : ∀ (l : List Account) (c : Int), 0 ≤ c →
      (∀ x ∈ l, 0 ≤ x.balance) →
      ∀ a' ∈ l.map (fun x =>
        if x.id == aid && x.version == ev
        then (⟨x.id, x.user_id, c, x.version + 1⟩ : Account) else x),
        0 ≤ a'.balance := by
    intro l c hc hl a' ha'
    rcases List.mem_map.mp ha' with ⟨x, hx, rfl⟩
    by_cases hhit : (x.id == aid && x.version == ev) = true
    · simp [hhit, hc]
    · simp only [hhit, if_false]
      exact hl x hx
  refine ⟨?_, ?_, ?_⟩
  · -- (1) the invariant is preserved on every path
    cases hacc : findAccount db aid with
    | none =>
      rw [ub_missing_eq db auth aid amt ty ev key hacc]
      split_ifs <;> simpa using hinv
    | some a =>
      by_cases hauth : authCheckFails a.user_id auth = true
      · rw [ub_unauthorized_eq db auth aid amt ty ev key a hacc hauth]
        simpa using hinv
      · have hauth' : authCheckFails a.user_id auth = false := by
          simpa using hauth
        by_cases hrep : replayHit db key = true
        · rw [ub_replay_eq db auth aid amt ty ev key a hacc hauth' hrep]
          simpa using hinv
        · have hrep' : replayHit db key = false := by simpa using hrep
          by_cases hv : a.version = ev
          · by_cases hty : (ty == "deposit" || ty == "withdraw") = true
            · have hty' : ty = "deposit" ∨ ty = "withdraw" := by
                simpa using hty
              rcases hty' with h | h <;> subst h
              · -- deposit
                by_cases hc : 0 ≤ a.balance + amt
                · rw [ub_commit_eq db auth aid amt "deposit" ev key a hacc
                    hauth' hrep' hv (Or.inl rfl) (by simpa [candidate] using hc)]
                  cases hins : insertTxn
                      { db with accounts := db.accounts.map (fun x =>
                          if x.id == aid && x.version == ev
                          then ⟨x.id, x.user_id,
                            candidate "deposit" a.balance amt, x.version + 1⟩
                          else x) }
                      ⟨aid, "deposit", amt, a.balance,
                        candidate "deposit" a.balance amt, ev + 1,
                        "completed", none, key⟩ with
                  | ok db3 =>
                    simp only
                    have haccs := insertTxn_accounts hins
                    intro a' ha'
                    rw [haccs] at ha'
                    exact hmap db.accounts (candidate "deposit" a.balance amt)
                      (by simpa [candidate] using hc) hinv a' ha'
                  | error e =>
                    simpa using hinv
                · have hcn : a.balance + amt < 0 := by omega
                  rw [ub_deposit_negative_eq db auth aid amt ev key a hacc
                    hauth' hrep' hv hcn]
                  simpa using hinv
              · -- withdraw
                by_cases hc : a.balance - amt < 0
                · rw [ub_insufficient_match_eq db auth aid amt ev key a hacc
                    hauth' hrep' hv hc]
                  cases hins : insertTxn db
                      ⟨aid, "withdraw", amt, a.balance, a.balance, ev,
                        "failed", some "Insufficient funds", key⟩ with
                  | ok db2 =>
                    simp only
                    have haccs := insertTxn_accounts hins
                    intro a' ha'
                    rw [haccs] at ha'
                    exact hinv a' ha'
                  | error e =>
                    simpa using hinv
                · have hc' : 0 ≤ candidate "withdraw" a.balance amt := by
                    simp only [candidate]
                    simp
                    omega
                  rw [ub_commit_eq db auth aid amt "withdraw" ev key a hacc
                    hauth' hrep' hv (Or.inr rfl) hc']
                  cases hins : insertTxn
                      { db with accounts := db.accounts.map (fun x =>
                          if x.id == aid && x.version == ev
                          then ⟨x.id, x.user_id,
                            candidate "withdraw" a.balance amt, x.version + 1⟩
                          else x) }
                      ⟨aid, "withdraw", amt, a.balance,
                        candidate "withdraw" a.balance amt, ev + 1,
                        "completed", none, key⟩ with
                  | ok db3 =>
                    simp only
                    have haccs := insertTxn_accounts hins
                    intro a' ha'
                    rw [haccs] at ha'
                    exact hmap db.accounts (candidate "withdraw" a.balance amt)
                      hc' hinv a' ha'
                  | error e =>
                    simpa using hinv
            · have hty' : (ty == "deposit" || ty == "withdraw") = false := by
                simpa using hty
              rw [ub_invalid_type_eq db auth aid amt ty ev key a hacc hauth'
                hrep' hv hty']
              simpa using hinv
          · rw [ub_version_conflict_eq db auth aid amt ty ev key a hacc
              hauth' hrep' hv]
            simpa using hinv
  · -- (2) a negative-candidate withdraw never commits the conditional write
    intro a hty h1 hneg
    subst hty
    by_cases hauth : authCheckFails a.user_id auth = true
    · rw [ub_unauthorized_eq db auth aid amt "withdraw" ev key a h1 hauth]
    · have hauth' : authCheckFails a.user_id auth = false := by simpa using hauth
      by_cases hrep : replayHit db key = true
      · rw [ub_replay_eq db auth aid amt "withdraw" ev key a h1 hauth' hrep]
      · have hrep' : replayHit db key = false := by simpa using hrep
        by_cases hv : a.version = ev
        · rw [ub_insufficient_match_eq db auth aid amt ev key a h1 hauth'
            hrep' hv hneg]
          cases hins : insertTxn db
              ⟨aid, "withdraw", amt, a.balance, a.balance, ev,
                "failed", some "Insufficient funds", key⟩ with
          | ok db2 =>
            exact insertTxn_accounts hins
          | error e => rfl
        · rw [ub_version_conflict_eq db auth aid amt "withdraw" ev key a h1
            hauth' hrep' hv]
  · -- (3) with the funds check reached and a fresh key: INSUFFICIENT_FUNDS
    intro a hty h1 h2 h3 h4 hneg h8
    subst hty
    rw [ub_insufficient_eq db auth aid amt ev key a h1 h2 h3 h4 hneg hamt h8,
      h4]

/-- Witness for C1: depositing 30 into `dbSmall` (all balances ≥ 0) keeps
all balances ≥ 0, and withdrawing 10 from balance 5 leaves the accounts
table unchanged and yields INSUFFICIENT_FUNDS. -/
theorem C1_witness :
    (∀ a' ∈ (update_balance dbSmall none 0 30 "deposit" 1 none).1.accounts,
      0 ≤ a'.balance)
    ∧ (update_balance dbSmall none 0 10 "withdraw" 1 none).1.accounts =
        dbSmall.accounts
    ∧ (update_balance dbSmall none 0 10 "withdraw" 1 none).2 =
        .rows ⟨false, some 5, some 1, some "INSUFFICIENT_FUNDS",
          some ("Cannot withdraw " ++ toString (10 : Int)
            ++ " from balance " ++ toString (5 : Int))⟩ := by
  refine ⟨(C1_balance_invariant dbSmall none 0 30 "deposit" 1 none
      (by decide) (by decide)).1,
    (C1_balance_invariant dbSmall none 0 10 "withdraw" 1 none
      (by decide) (by decide)).2.1 ⟨0, none, 5, 1⟩ rfl (by decide) (by decide),
    (C1_balance_invariant dbSmall none 0 10 "withdraw" 1 none
      (by decide) (by decide)).2.2 ⟨0, none, 5, 1⟩ rfl (by decide) (by decide)
      (by decide) (by decide) (by decide) (by decide)⟩

/-- C2: version counter semantics.  With distinct account ids (the primary
key): (1) every call that returns success other than by idempotent replay
leaves the target account at version expectedVersion + 1 and reports
`new_version = expectedVersion + 1`; (2) every call that returns a
non-success outcome (ACCOUNT_NOT_FOUND, UNAUTHORIZED, VERSION_CONFLICT,
INVALID_TYPE, INSUFFICIENT_FUNDS) leaves the accounts table — hence every
balance and version — unchanged. -/
theorem C2_version_semantics (db : DB) (auth : Option Nat) (aid : Nat)
    (amt : Int) (ty : String) (ev : Int) (key : Option Nat)
    (hnd : (db.accounts.map (fun a => a.id)).Nodup) :
    ∀ r, (update_balance db auth aid amt ty ev key).2 = .rows r →
      ((r.success = true → replayHit db key = false →
          r.new_version = some (ev + 1) ∧
          ∀ a' ∈ (update_balance db auth aid amt ty ev key).1.accounts,
            a'.id = aid → a'.version = ev + 1) ∧
       (r.success = false →
          (update_balance db auth aid amt ty ev key).1.accounts =
            db.accounts)) := by
  intro r hrow
  cases hacc : findAccount db aid with
  | none =>
    rw [ub_missing_eq db auth aid amt ty ev key hacc] at hrow ⊢
    split_ifs at hrow ⊢ with hr1 hr2
    · cases hrow
      exact ⟨fun _ hrep => absurd hrep (by simp [hr1]), fun _ => rfl⟩
    · cases hrow
      exact ⟨fun hs _ => absurd hs (by simp), fun _ => rfl⟩
    · cases hrow
      exact ⟨fun hs _ => absurd hs (by simp), fun _ => rfl⟩
  | some a =>
    have h1' : db.accounts.find? (fun x => x.id == aid) = some a := hacc
    have hmem : a ∈ db.accounts := List.mem_of_find?_eq_some h1'
    have hid : a.id = aid := by simpa using List.find?_some h1'
    by_cases hauth : authCheckFails a.user_id auth = true
    · rw [ub_unauthorized_eq db auth aid amt ty ev key a hacc hauth] at hrow ⊢
      cases hrow
      exact ⟨fun hs _ => absurd hs (by simp), fun _ => rfl⟩
    · have hauth' : authCheckFails a.user_id auth = false := by
        simpa using hauth
      by_cases hrep : replayHit db key = true
      · rw [ub_replay_eq db auth aid amt ty ev key a hacc hauth' hrep]
          at hrow ⊢
        cases hrow
        exact ⟨fun _ hrf => absurd hrf (by simp [hrep]), fun _ => rfl⟩
      · have hrep' : replayHit db key = false := by simpa using hrep
        by_cases hv : a.version = ev
        · by_cases hty : (ty == "deposit" || ty == "withdraw") = true
          · have hty' : ty = "deposit" ∨ ty = "withdraw" := by simpa using hty
            have hver : ∀ (c : Int),
                ∀ a' ∈ db.accounts.map (fun x =>
                  if x.id == aid && x.version == ev
                  then (⟨x.id, x.user_id, c, x.version + 1⟩ : Account)
                  else x),
                a'.id = aid → a'.version = ev + 1 := by
              intro c a' ha' hid'
              rcases List.mem_map.mp ha' with ⟨x, hx, rfl⟩
              by_cases hhit : (x.id == aid && x.version == ev) = true
              · obtain ⟨hxi, hxv⟩ : x.id = aid ∧ x.version = ev := by
                  simpa using hhit
                simp [hxi, hxv]
              · exfalso
                simp only [hhit, Bool.false_eq_true, if_false] at hid'
                have hxa : x = a :=
                  List.inj_on_of_nodup_map hnd hx hmem (by rw [hid', hid])
                subst hxa
                exact hhit (by simp [hid, hv])
            rcases hty' with h | h <;> subst h
            · -- deposit
              by_cases hc : 0 ≤ a.balance + amt
              · rw [ub_commit_eq db auth aid amt "deposit" ev key a hacc
                  hauth' hrep' hv (Or.inl rfl) (by simpa [candidate] using hc)]
                  at hrow ⊢
                revert hrow
                cases hins : insertTxn
                    { db with accounts := db.accounts.map (fun x =>
                        if x.id == aid && x.version == ev
                        then ⟨x.id, x.user_id,
                          candidate "deposit" a.balance amt, x.version + 1⟩
                        else x) }
                    ⟨aid, "deposit", amt, a.balance,
                      candidate "deposit" a.balance amt, ev + 1,
                      "completed", none, key⟩ with
                | ok db3 =>
                  intro hrow
                  cases hrow
                  refine ⟨fun _ _ => ⟨rfl, ?_⟩, fun hf => absurd hf (by simp)⟩
                  have haccs := insertTxn_accounts hins
                  intro a' ha'
                  rw [haccs] at ha'
                  exact hver (candidate "deposit" a.balance amt) a' ha'
                | error e =>
                  intro hrow
                  cases hrow
              · have hcn : a.balance + amt < 0 := by omega
                rw [ub_deposit_negative_eq db auth aid amt ev key a hacc
                  hauth' hrep' hv hcn] at hrow
                cases hrow
            · -- withdraw
              by_cases hc : a.balance - amt < 0
              · rw [ub_insufficient_match_eq db auth aid amt ev key a hacc
                  hauth' hrep' hv hc] at hrow ⊢
                revert hrow
                cases hins : insertTxn db
                    ⟨aid, "withdraw", amt, a.balance, a.balance, ev,
                      "failed", some "Insufficient funds", key⟩ with
                | ok db2 =>
                  intro hrow
                  cases hrow
                  exact ⟨fun hs _ => absurd hs (by simp),
                    fun _ => insertTxn_accounts hins⟩
                | error e =>
                  intro hrow
                  cases hrow
              · have hc' : 0 ≤ candidate "withdraw" a.balance amt := by
                  simp only [candidate]
                  simp
                  omega
                rw [ub_commit_eq db auth aid amt "withdraw" ev key a hacc
                  hauth' hrep' hv (Or.inr rfl) hc'] at hrow ⊢
                revert hrow
                cases hins : insertTxn
                    { db with accounts := db.accounts.map (fun x =>
                        if x.id == aid && x.version == ev
                        then ⟨x.id, x.user_id,
                          candidate "withdraw" a.balance amt, x.version + 1⟩
                        else x) }
                    ⟨aid, "withdraw", amt, a.balance,
                      candidate "withdraw" a.balance amt, ev + 1,
                      "completed", none, key⟩ with
                | ok db3 =>
                  intro hrow
                  cases hrow
                  refine ⟨fun _ _ => ⟨rfl, ?_⟩, fun hf => absurd hf (by simp)⟩
                  have haccs := insertTxn_accounts hins
                  intro a' ha'
                  rw [haccs] at ha'
                  exact hver (candidate "withdraw" a.balance amt) a' ha'
                | error e =>
                  intro hrow
                  cases hrow
          · have hty'' : (ty == "deposit" || ty == "withdraw") = false := by
              simpa using hty
            rw [ub_invalid_type_eq db auth aid amt ty ev key a hacc hauth'
              hrep' hv hty''] at hrow ⊢
            cases hrow
            exact ⟨fun hs _ => absurd hs (by simp), fun _ => rfl⟩
        · rw [ub_version_conflict_eq db auth aid amt ty ev key a hacc hauth'
            hrep' hv] at hrow ⊢
          cases hrow
          exact ⟨fun hs _ => absurd hs (by simp), fun _ => rfl⟩

/-- Witness for C2: a successful deposit into `dbSmall` (expected version
1, no replay) moves the account to version 2 = 1 + 1 and reports
new_version 2; a rejected over-withdrawal leaves the accounts unchanged. -/
theorem C2_witness :
    ((UBRow.mk true (some 35) (some 2) none none).new_version = some (1 + 1) ∧
      ∀ a' ∈ (update_balance dbSmall none 0 30 "deposit" 1 none).1.accounts,
        a'.id = 0 → a'.version = 1 + 1) ∧
    ((update_balance dbSmall none 0 10 "withdraw" 1 none).1.accounts =
      dbSmall.accounts) := by
  refine ⟨(C2_version_semantics dbSmall none 0 30 "deposit" 1 none
      (by decide) ⟨true, some 35, some 2, none, none⟩ (by decide)).1
      rfl (by decide),
    (C2_version_semantics dbSmall none 0 10 "withdraw" 1 none
      (by decide) ⟨false, some 5, some 1, some "INSUFFICIENT_FUNDS",
        some ("Cannot withdraw " ++ toString (10 : Int)
          ++ " from balance " ++ toString (5 : Int))⟩ (by decide)).2
      rfl⟩

/-! ## Client retry controller lemmas -/

/-- Any uncaught throw produced inside one loop iteration is non-retryable:
the catch clause rethrows only errors whose `isRetryable` is false. -/
theorem attemptStep_inl_thrown (config : RetryConfig) (ty : String)
    (amt : Int) (att : Attempt) (e : BErr)
    (h : attemptStep config ty amt att = .inl (.thrown e)) :
    isRetryable e = false := by
  unfold attemptStep at h
  repeat' split at h
  all_goals try simp_all [isRetryable]
  all_goals try (repeat' split at h)
  all_goals try simp_all
  all_goals try subst h
  all_goals simp_all

/-- A result returned (rather than thrown) by one loop iteration is a
successful one: non-success rows are either thrown or retried. -/
theorem attemptStep_inl_returned (config : RetryConfig) (ty : String)
    (amt : Int) (att : Attempt) (r : UBRow)
    (h : attemptStep config ty amt att = .inl (.returned r)) :
    r.success = true := by
  unfold attemptStep at h
  repeat' split at h
  all_goals try simp_all
  all_goals try (repeat' split at h)
  all_goals try simp_all
  all_goals try subst h
  all_goals simp_all

/-- The retry loop never terminates with a thrown VERSION_CONFLICT or
NETWORK_ERROR: retryable outcomes are absorbed, and exhaustion surfaces
MAX_RETRIES_EXCEEDED instead. -/
theorem updateBalanceLoop_no_retryable_throw (config : RetryConfig)
    (ty : String) (amt : Int) (atts : Nat → Attempt) :
    ∀ (fuel i : Nat) (le : Option BErr) (e : BErr),
    updateBalanceLoop config ty amt atts fuel i le = .thrown e →
    e.code ≠ "VERSION_CONFLICT" ∧ e.code ≠ "NETWORK_ERROR" := by
  intro fuel
  induction fuel with
  | zero =>
    intro i le e h
    simp only [updateBalanceLoop] at h
    cases h
    exact ⟨by simp, by simp⟩
  | succ fuel ih =>
    intro i le e h
    simp only [updateBalanceLoop] at h
    cases hstep : attemptStep config ty amt (atts i) with
    | inl res =>
      rw [hstep] at h
      cases res with
      | returned r => cases h
      | thrown e2 =>
        cases h
        have hnr := attemptStep_inl_thrown config ty amt (atts i) _ hstep
        unfold isRetryable at hnr
        constructor <;> intro hc <;> rw [hc] at hnr <;> simp at hnr
    | inr e2 =>
      rw [hstep] at h
      exact ih (i + 1) (some e2) e h

/-- The retry loop never terminates by returning an unsuccessful row. -/
theorem updateBalanceLoop_returned_success (config : RetryConfig)
    (ty : String) (amt : Int) (atts : Nat → Attempt) :
    ∀ (fuel i : Nat) (le : Option BErr) (r : UBRow),
    updateBalanceLoop config ty amt atts fuel i le = .returned r →
    r.success = true := by
  intro fuel
  induction fuel with
  | zero =>
    intro i le r h
    simp only [updateBalanceLoop] at h
    cases h
  | succ fuel ih =>
    intro i le r h
    simp only [updateBalanceLoop] at h
    cases hstep : attemptStep config ty amt (atts i) with
    | inl res =>
      rw [hstep] at h
      cases res with
      | returned r2 =>
        cases h
        exact attemptStep_inl_returned config ty amt (atts i) _ hstep
      | thrown e2 => cases h
    | inr e2 =>
      rw [hstep] at h
      exact ih (i + 1) (some e2) r h

/-- When every iteration is absorbed as retryable, the loop exhausts its
fuel and throws MAX_RETRIES_EXCEEDED carrying the last absorbed error's
balance and version. -/
theorem updateBalanceLoop_all_retryable (config : RetryConfig)
    (ty : String) (amt : Int) (atts : Nat → Attempt) (es : Nat → BErr)
    (hall : ∀ j, attemptStep config ty amt (atts j) = .inr (es j)) :
    ∀ (fuel i : Nat) (le : Option BErr),
    updateBalanceLoop config ty amt atts (fuel + 1) i le =
      .thrown ⟨"MAX_RETRIES_EXCEEDED", (es (i + fuel)).currentBalance,
        (es (i + fuel)).currentVersion⟩ := by
  intro fuel
  induction fuel with
  | zero =>
    intro i le
    simp only [updateBalanceLoop, hall i, Nat.add_zero]
    rfl
  | succ fuel ih =>
    intro i le
    have : updateBalanceLoop config ty amt atts (fuel + 1 + 1) i le =
        updateBalanceLoop config ty amt atts (fuel + 1) (i + 1) (some (es i)) := by
      simp only [updateBalanceLoop, hall i]
    rw [this, ih (i + 1) (some (es i))]
    have harith : i + 1 + fuel = i + (fuel + 1) := by omega
    rw [harith]

/-- C7: retryable outcomes are absorbed by the retry controller.  For every
configuration and every run: (1) the controller never surfaces a thrown
VERSION_CONFLICT or NETWORK_ERROR; (2) a returned (non-thrown) result is
always a success; (3) when every attempt yields a retryable outcome and the
inputs pass validation, the controller exhausts maxRetries and surfaces
MAX_RETRIES_EXCEEDED carrying the last absorbed error's balance/version;
(4) an attempt classified as terminal ends the loop immediately with that
very outcome, independently of any remaining fuel or later attempts. -/
theorem C7_retry_absorption (config : RetryConfig) (ty : String)
    (amt : Int) (atts : Nat → Attempt) :
    (∀ e, updateBalance config ty amt atts = .thrown e →
      e.code ≠ "VERSION_CONFLICT" ∧ e.code ≠ "NETWORK_ERROR")
    ∧ (∀ r, updateBalance config ty amt atts = .returned r →
      r.success = true)
    ∧ (∀ es : Nat → BErr,
      (∀ j, attemptStep config ty amt (atts j) = .inr (es j)) →
      ¬ amt ≤ 0 → (["deposit", "withdraw"].contains ty) = true →
      updateBalance config ty amt atts =
        .thrown ⟨"MAX_RETRIES_EXCEEDED",
          (es config.maxRetries).currentBalance,
          (es config.maxRetries).currentVersion⟩)
    ∧ (∀ (i fuel : Nat) (le : Option BErr) (res : ClientResult),
      attemptStep config ty amt (atts i) = .inl res →
      updateBalanceLoop config ty amt atts (fuel + 1) i le = res) := by
  refine ⟨?_, ?_, ?_, ?_⟩
  · intro e h
    unfold updateBalance at h
    split_ifs at h with h1 h2
    all_goals first
      | exact updateBalanceLoop_no_retryable_throw config ty amt atts
          (config.maxRetries + 1) 0 none e h
      | (cases h; exact ⟨by simp, by simp⟩)
  · intro r h
    unfold updateBalance at h
    split_ifs at h with h1 h2
    all_goals first
      | exact updateBalanceLoop_returned_success config ty amt atts
          (config.maxRetries + 1) 0 none r h
      | simp at h
  · intro es hall hamt hty
    unfold updateBalance
    rw [if_neg hamt,
      if_neg (show ¬ (!(["deposit", "withdraw"].contains ty)) = true by
        rw [hty]; decide)]
    rw [updateBalanceLoop_all_retryable config ty amt atts es hall
      config.maxRetries 0 none]
    rw [Nat.zero_add]
  · intro i fuel le res hstep
    simp only [updateBalanceLoop, hstep]

/-- Witness for C7: with the default configuration (maxRetries = 3), a
deposit whose four attempts all return VERSION_CONFLICT rows (balance 5,
version 2) surfaces MAX_RETRIES_EXCEEDED carrying balance 5 / version 2. -/
theorem C7_witness :
    updateBalance DEFAULT_RETRY_CONFIG "deposit" 10
      (fun _ => ⟨.ok 2 5, .ok ⟨false, some 5, some 2,
        some "VERSION_CONFLICT", some "Version mismatch"⟩⟩) =
      .thrown ⟨"MAX_RETRIES_EXCEEDED", some 5, some 2⟩ :=
  (C7_retry_absorption DEFAULT_RETRY_CONFIG "deposit" 10
    (fun _ => ⟨.ok 2 5, .ok ⟨false, some 5, some 2,
      some "VERSION_CONFLICT", some "Version mismatch"⟩⟩)).2.2.1
    (fun _ => ⟨"VERSION_CONFLICT", some 5, some 2⟩)
    (fun j => by
      show attemptStep DEFAULT_RETRY_CONFIG "deposit" 10
          ⟨.ok 2 5, .ok ⟨false, some 5, some 2,
            some "VERSION_CONFLICT", some "Version mismatch"⟩⟩ =
        .inr ⟨"VERSION_CONFLICT", some 5, some 2⟩
      decide) (by decide) (by decide)

/-- C6, counterexample: the claim says INSUFFICIENT_FUNDS is always
delivered as an ordinary returned result, never thrown.  But the client
controller `updateBalance` throws: withdrawing 10 when the fetched balance
is 5 makes the early check throw BankingError INSUFFICIENT_FUNDS, which
the catch clause rethrows as non-retryable — the caller gets a thrown
error, not a returned result. -/
theorem C6_counterexample_client_throws :
    updateBalance DEFAULT_RETRY_CONFIG "withdraw" 10
      (fun _ => ⟨.ok 1 5, .netError⟩) =
      .thrown ⟨"INSUFFICIENT_FUNDS", some 5, some 1⟩
    ∧ ∀ r, updateBalance DEFAULT_RETRY_CONFIG "withdraw" 10
        (fun _ => ⟨.ok 1 5, .netError⟩) = .returned r → False := by
  refine ⟨by decide, ?_⟩
  intro r hr
  rw [(by decide : updateBalance DEFAULT_RETRY_CONFIG "withdraw" 10
      (fun _ => ⟨.ok 1 5, .netError⟩) =
      .thrown ⟨"INSUFFICIENT_FUNDS", some 5, some 1⟩)] at hr
  cases hr

/-- C6 as amended: the SQL operation `update_balance` delivers
INSUFFICIENT_FUNDS as an ordinary result row (success = false), but the
client retry controller `updateBalance` surfaces an uncoverable withdrawal
by THROWING a BankingError with code INSUFFICIENT_FUNDS (carrying the
observed balance and version) without retrying — not by returning a
result value. -/
theorem C6_insufficient_funds_propagation :
    (∀ (config : RetryConfig) (amt v b : Int) (rpc : RpcResult)
      (atts : Nat → Attempt),
      ¬ amt ≤ 0 → b < amt → atts 0 = ⟨.ok v b, rpc⟩ →
      updateBalance config "withdraw" amt atts =
        .thrown ⟨"INSUFFICIENT_FUNDS", some b, some v⟩)
    ∧ (∀ (config : RetryConfig) (amt v b : Int) (row : UBRow)
      (atts : Nat → Attempt),
      ¬ amt ≤ 0 → ¬ b < amt → atts 0 = ⟨.ok v b, .ok row⟩ →
      row.success = false → row.error_code = some "INSUFFICIENT_FUNDS" →
      "INSUFFICIENT_FUNDS" ∉ config.retryableErrors →
      updateBalance config "withdraw" amt atts =
        .thrown ⟨"INSUFFICIENT_FUNDS", row.new_balance, row.new_version⟩)
    ∧ (update_balance dbSmall none 0 10 "withdraw" 1 none).2 =
        .rows ⟨false, some 5, some 1, some "INSUFFICIENT_FUNDS",
          some "Cannot withdraw 10 from balance 5"⟩ := by
  refine ⟨?_, ?_, by decide⟩
  · intro config amt v b rpc atts hamt hb h0
    unfold updateBalance
    rw [if_neg hamt, if_neg (by decide)]
    simp only [updateBalanceLoop]
    have hstep : attemptStep config "withdraw" amt (atts 0) =
        .inl (.thrown ⟨"INSUFFICIENT_FUNDS", some b, some v⟩) := by
      rw [h0]
      unfold attemptStep
      simp [hb]
    rw [hstep]
  · intro config amt v b row atts hamt hb h0 hs hc hnr
    unfold updateBalance
    rw [if_neg hamt, if_neg (by decide)]
    simp only [updateBalanceLoop]
    have hstep : attemptStep config "withdraw" amt (atts 0) =
        .inl (.thrown ⟨"INSUFFICIENT_FUNDS", row.new_balance,
          row.new_version⟩) := by
      rw [h0]
      unfold attemptStep
      simp [hb, hs, hc, hnr, isRetryable]
    rw [hstep]

/-- Witness for C6: withdrawing 10 when the fetched balance is 5 ends in a
thrown INSUFFICIENT_FUNDS with balance 5 / version 1 via the early check;
and with a fetched balance of 20, an RPC result row rejecting the
withdrawal as INSUFFICIENT_FUNDS (balance 20, version 1) is likewise
surfaced as a thrown error under the default configuration. -/
theorem C6_witness :
    updateBalance DEFAULT_RETRY_CONFIG "withdraw" 10
      (fun _ => ⟨.ok 1 5, .empty⟩) =
      .thrown ⟨"INSUFFICIENT_FUNDS", some 5, some 1⟩
    ∧ updateBalance DEFAULT_RETRY_CONFIG "withdraw" 10
        (fun _ => ⟨.ok 1 20, .ok ⟨false, some 20, some 1,
          some "INSUFFICIENT_FUNDS",
          some "Cannot withdraw 10 from balance 20"⟩⟩) =
      .thrown ⟨"INSUFFICIENT_FUNDS", some 20, some 1⟩ :=
  ⟨C6_insufficient_funds_propagation.1 DEFAULT_RETRY_CONFIG 10 1 5 .empty
    (fun _ => ⟨.ok 1 5, .empty⟩) (by decide) (by decide) rfl,
   C6_insufficient_funds_propagation.2.1 DEFAULT_RETRY_CONFIG 10 1 20
    ⟨false, some 20, some 1, some "INSUFFICIENT_FUNDS",
      some "Cannot withdraw 10 from balance 20"⟩
    (fun _ => ⟨.ok 1 20, .ok ⟨false, some 20, some 1,
      some "INSUFFICIENT_FUNDS",
      some "Cannot withdraw 10 from balance 20"⟩⟩)
    (by decide) (by decide) rfl rfl rfl (by decide)⟩

/-- `Math.round` (round half toward positive infinity) is monotone. -/
theorem round_mono_q {x y : ℚ} (h : x ≤ y) : round x ≤ round y := by
  rw [round_eq, round_eq]
  exact Int.floor_le_floor (by linarith)

/-- C8: backoff formula with bounded jitter.  For every attempt n, every
configuration with non-negative delays, and every random draw r ∈ [0, 1):
with c = min(baseDelayMs * 2^n, maxDelayMs), (1) the computed delay equals
round(c + j) for the jitter j = c * 0.25 * (2r − 1); (2) the jitter
satisfies −0.25·c ≤ j ≤ 0.25·c; (3) the delay lies between round(0.75·c)
and round(1.25·c); and (4) for a fixed draw the delay is monotonically
non-decreasing in n (capped by maxDelayMs). -/
theorem C8_backoff_bounds (n : Nat) (config : RetryConfig) (r : ℚ)
    (hr0 : 0 ≤ r) (hr1 : r < 1)
    (hb : 0 ≤ config.baseDelayMs) (hm : 0 ≤ config.maxDelayMs) :
    (calculateBackoffDelay n config r =
      round (min (config.baseDelayMs * 2 ^ n) config.maxDelayMs +
        min (config.baseDelayMs * 2 ^ n) config.maxDelayMs * (1 / 4 : ℚ) *
          (r * 2 - 1)))
    ∧ (-(1 / 4 : ℚ) * min (config.baseDelayMs * 2 ^ n) config.maxDelayMs ≤
        min (config.baseDelayMs * 2 ^ n) config.maxDelayMs * (1 / 4 : ℚ) *
          (r * 2 - 1)
      ∧ min (config.baseDelayMs * 2 ^ n) config.maxDelayMs * (1 / 4 : ℚ) *
          (r * 2 - 1) ≤
        (1 / 4 : ℚ) * min (config.baseDelayMs * 2 ^ n) config.maxDelayMs)
    ∧ (round ((3 / 4 : ℚ) *
          min (config.baseDelayMs * 2 ^ n) config.maxDelayMs) ≤
        calculateBackoffDelay n config r
      ∧ calculateBackoffDelay n config r ≤
        round ((5 / 4 : ℚ) *
          min (config.baseDelayMs * 2 ^ n) config.maxDelayMs))
    ∧ calculateBackoffDelay n config r ≤
        calculateBackoffDelay (n + 1) config r := by
  set c : ℚ := min (config.baseDelayMs * 2 ^ n) config.maxDelayMs with hc
  have hc0 : 0 ≤ c := le_min (mul_nonneg hb (by positivity)) hm
  have hjlo : -(1 / 4 : ℚ) * c ≤ c * (1 / 4 : ℚ) * (r * 2 - 1) := by
    nlinarith
  have hjhi : c * (1 / 4 : ℚ) * (r * 2 - 1) ≤ (1 / 4 : ℚ) * c := by
    nlinarith
  have heq : calculateBackoffDelay n config r =
      round (c + c * (1 / 4 : ℚ) * (r * 2 - 1)) := rfl
  refine ⟨heq, ⟨hjlo, hjhi⟩, ⟨?_, ?_⟩, ?_⟩
  · rw [heq]
    exact round_mono_q (by linarith)
  · rw [heq]
    exact round_mono_q (by linarith)
  · have hcc : c ≤ min (config.baseDelayMs * 2 ^ (n + 1)) config.maxDelayMs := by
      rw [hc]
      refine min_le_min ?_ le_rfl
      have : (2 : ℚ) ^ n ≤ 2 ^ (n + 1) := by
        have h2 : (1 : ℚ) ≤ 2 := by norm_num
        exact pow_le_pow_right h2 (Nat.le_succ n)
      nlinarith
    set d : ℚ := min (config.baseDelayMs * 2 ^ (n + 1)) config.maxDelayMs
    have heq2 : calculateBackoffDelay (n + 1) config r =
        round (d + d * (1 / 4 : ℚ) * (r * 2 - 1)) := rfl
    rw [heq, heq2]
    refine round_mono_q ?_
    nlinarith

/-- Witness for C8: with the default configuration and the draw r = 0, the
hypotheses hold and the delay for attempt 0 is no larger than the delay
for attempt 1. -/
theorem C8_witness :
    ((0 : ℚ) ≤ 0 ∧ (0 : ℚ) < 1 ∧
      0 ≤ DEFAULT_RETRY_CONFIG.baseDelayMs ∧
      0 ≤ DEFAULT_RETRY_CONFIG.maxDelayMs) ∧
    calculateBackoffDelay 0 DEFAULT_RETRY_CONFIG 0 ≤
      calculateBackoffDelay 1 DEFAULT_RETRY_CONFIG 0 :=
  ⟨⟨le_refl 0, by norm_num, by norm_num [DEFAULT_RETRY_CONFIG],
    by norm_num [DEFAULT_RETRY_CONFIG]⟩,
   (C8_backoff_bounds 0 DEFAULT_RETRY_CONFIG 0 (le_refl 0) (by norm_num)
     (by norm_num [DEFAULT_RETRY_CONFIG])
     (by norm_num [DEFAULT_RETRY_CONFIG])).2.2.2⟩
